import Mathlib

/-!
Shallow embedding of the basket storage engine of the request-baskets
service (Deta backend fork).  Definitions are translated from
src/baskets_deta.go and src/handlers.go; data records that live in files
absent from src (request.go, baskets.go) are modelled from the spec and
say so in their doc comments.  Go ints are embedded as Int where sign
matters (capacities, HTTP status codes) and as Nat where the source only
ever stores non-negative values (list lengths, page offsets after the
clamping in handlers.go getPage).
-/

/-- Modelled from the spec: substring containment used by request search
(`strings.Contains` in Go): the pattern occurs contiguously in the text.
Case sensitive. -/
def strContains (s pat : String) : Bool :=
  (List.range (s.length + 1)).any (fun i => pat.data.isPrefixOf (s.data.drop i))

/-- Modelled from the spec (§3 Data Model): a Request Snapshot -- an
immutable record of one captured HTTP request.  The header multimap is
kept in its serialized block form, which is what the search predicate
consults.  The definition of this record (request.go) is not part of the
sources under review; only its users are. -/
structure RequestData where
  Method : String
  Path : String
  Query : String
  HeadersBlock : String
  Body : String
  Date : Int
deriving Repr, DecidableEq

/-- Modelled from the spec (§4.1 FindRequests): a snapshot matches when
the query is a case-sensitive substring of the raw body (field "body"),
the serialized header block (field "headers"), the raw query string
(field "query"), or any of the three (field "any" or any unrecognized
value).  The Go implementation (RequestData.Matches in request.go) is
absent from the sources under review. -/
def RequestData.Matches (r : RequestData) (query fld : String) : Bool :=
  if fld == "body" then strContains r.Body query
  else if fld == "headers" then strContains r.HeadersBlock query
  else if fld == "query" then strContains r.Query query
  else strContains r.Body query || strContains r.HeadersBlock query ||
    strContains r.Query query

/-- Modelled from the spec (§3 Data Model): basket configuration.  The Go
record (baskets.go) is absent from the sources under review; field names
follow its JSON contract.  Capacity is a Go int, embedded as Int. -/
structure BasketConfig where
  ForwardURL : String
  Capacity : Int
  ProxyResponse : Bool
  InsecureTLS : Bool
  ExpandPath : Bool
deriving Repr, DecidableEq

/-- Modelled from the spec (§3 Data Model): a configured synthetic reply.
The Go record (baskets.go) is absent from the sources under review. -/
structure ResponseConfig where
  Status : Int
  Headers : List (String × List String)
  Body : String
  IsTemplate : Bool
deriving Repr, DecidableEq

/-- src/baskets_deta.go detaBasket: the in-memory state of one basket.
The sync.RWMutex and the deta base handle are operational (locking and
remote mirroring) and carry no observable state; the method-to-response
map is embedded as an association list with unique keys maintained by
SetResponse. -/
structure detaBasket where
  Key : String
  Token : String
  BConfig : BasketConfig
  Requests : List RequestData
  TotalCount : Nat
  Responses : List (String × ResponseConfig)
deriving Repr, DecidableEq

namespace detaBasket

/-- src/baskets_deta.go Size (lines 113-115). -/
def Size (basket : detaBasket) : Nat :=
  basket.Requests.length

/-- src/baskets_deta.go applyLimit (lines 29-37): keep requests up to the
configured capacity (the remote base.Update mirrors the same slice and is
not state of the model). -/
def applyLimit (basket : detaBasket) : detaBasket :=
  if (basket.Requests.length : Int) > basket.BConfig.Capacity then
    { basket with Requests := basket.Requests.take basket.BConfig.Capacity.toNat }
  else basket

/-- src/baskets_deta.go Config (lines 39-41). -/
def Config (basket : detaBasket) : BasketConfig :=
  basket.BConfig

/-- src/baskets_deta.go Update (lines 43-53): replace config, then
re-apply the capacity limit. -/
def Update (basket : detaBasket) (config : BasketConfig) : detaBasket :=
  applyLimit { basket with BConfig := config }

/-- src/baskets_deta.go Authorize (lines 55-57). -/
def Authorize (basket : detaBasket) (token : String) : Bool :=
  token == basket.Token

/-- src/baskets_deta.go Add (lines 80-99): prepend the snapshot, bump the
cumulative counter, then apply the capacity limit. -/
def Add (basket : detaBasket) (data : RequestData) : detaBasket :=
  applyLimit { basket with
    Requests := data :: basket.Requests
    TotalCount := basket.TotalCount + 1 }

/-- src/baskets_deta.go Clear (lines 101-111): reset the collected
requests; the reset of the total counter is commented out in the source,
so every other field is kept. -/
def Clear (basket : detaBasket) : detaBasket :=
  { basket with Requests := [] }

/-- Sequential Add of a list of snapshots, oldest first (the N sequential
Add operations of the capture endpoint). -/
def AddAll (basket : detaBasket) : List RequestData → detaBasket
  | [] => basket
  | r :: rs => AddAll (basket.Add r) rs

end detaBasket

/-- src/baskets_deta.go Create (lines 182-226): the record inserted for a
fresh basket -- empty request list, zero total counter, empty response
map, the given config and generated token. -/
def freshBasket (name token : String) (config : BasketConfig) : detaBasket :=
  { Key := name
    Token := token
    BConfig := config
    Requests := []
    TotalCount := 0
    Responses := [] }

/-- Modelled from the spec (§4.1 GetRequests): the page record of the
requests listing -- slice of the current sequence, current stored size,
cumulative counter, more-data flag.  The Go record (baskets.go) is absent
from the sources under review. -/
structure RequestsPage where
  Requests : List RequestData
  Count : Nat
  TotalCount : Nat
  HasMore : Bool
deriving Repr, DecidableEq

/-- Modelled from the spec (§4.1 FindRequests): the page record of the
request search -- matches found plus the more-data flag, no total count. -/
structure RequestsQueryPage where
  Requests : List RequestData
  HasMore : Bool
deriving Repr, DecidableEq

/-- Modelled from the spec (§4.2 FindNames): the page record of the name
search. -/
structure BasketNamesQueryPage where
  Names : List String
  HasMore : Bool
deriving Repr, DecidableEq

/-- src/baskets_deta.go GetRequests (lines 117-137).  The Go ints max and
skip are embedded as Nat: handlers.go getPage (lines 59-65) clamps max
into [1, PageSize*10] and skip into [0, MaxCapacity] before every call. -/
def detaBasket.GetRequests (basket : detaBasket) (max skip : Nat) : RequestsPage :=
  let size := basket.Size
  let last := skip + max
  let page : RequestsPage :=
    { Requests := []
      Count := size
      TotalCount := basket.TotalCount
      HasMore := decide (last < size) }
  if skip < size then
    { page with Requests := (basket.Requests.take (min last size)).drop skip }
  else page

/-- src/baskets_deta.go FindRequests (lines 139-164), the scan loop over
the stored sequence: the parameters after the list are the running
skipped-matches counter and the collected result slice.  The early exit
fires as soon as the result length equals max, reporting more data exactly
when items remain beyond the current one. -/
def findScan (query fld : String) (max skip : Nat) :
    List RequestData → Nat → List RequestData → RequestsQueryPage
  | [], _, result => { Requests := result, HasMore := false }
  | request :: rest, skipped, result =>
    let st :=
      if request.Matches query fld then
        if skipped < skip then (skipped + 1, result)
        else (skipped, result ++ [request])
      else (skipped, result)
    if st.2.length = max then { Requests := st.2, HasMore := !rest.isEmpty }
    else findScan query fld max skip rest st.1 st.2

/-- src/baskets_deta.go FindRequests (lines 139-164): run the scan from an
empty accumulator. -/
def detaBasket.FindRequests (basket : detaBasket) (query fld : String)
    (max skip : Nat) : RequestsQueryPage :=
  findScan query fld max skip basket.Requests 0 []

/-- src/baskets_deta.go FindNames (lines 346-371): the scan over the
stored names is commented out in the source; the function unconditionally
answers an empty page with HasMore false, whatever names the database
holds and whatever the query is. -/
def detaDatabase.FindNames (names : List String) (query : String)
    (max skip : Nat) : BasketNamesQueryPage :=
  { Names := [], HasMore := false }

/-- src/baskets_deta.go GetResponse (lines 59-68): map lookup by method. -/
def detaBasket.GetResponse (basket : detaBasket) (method : String) :
    Option ResponseConfig :=
  (basket.Responses.find? (fun kv => kv.1 == method)).map Prod.snd

/-- Go map upsert for the method-to-response association list of
src/baskets_deta.go SetResponse (lines 70-78): replace the binding when
the key is present, append it otherwise. -/
def upsertResponse : List (String × ResponseConfig) → String → ResponseConfig →
    List (String × ResponseConfig)
  | [], method, response => [(method, response)]
  | (k, v) :: rest, method, response =>
    if k == method then (method, response) :: rest
    else (k, v) :: upsertResponse rest method response

/-- src/baskets_deta.go SetResponse (lines 70-78). -/
def detaBasket.SetResponse (basket : detaBasket) (method : String)
    (response : ResponseConfig) : detaBasket :=
  { basket with Responses := upsertResponse basket.Responses method response }

/-! Handlers (src/handlers.go) and the constants they use
(src/unnamed/part_002, lines 19-24). -/

def ModePublic : String := "public"

def ModeRestricted : String := "restricted"

def serviceOldAPIPath : String := "baskets"

def serviceAPIPath : String := "api"

def serviceUIPath : String := "web"

/-- src/handlers.go authorizeRequest (lines 85-99): the body is a single
`return true`; the restricted-mode master-token check described by the
function doc comment is commented out in the source, so every request is
authorized whatever the mode, token and header are. -/
def authorizeRequest (publicAPI : Bool) (mode masterToken authHeader : String) : Bool :=
  true

/-- The character class of basketNamePattern (src/unnamed/part_002,
line 24, pattern anchored on both sides with repetition {1,250}): word
characters (ASCII letters, digits, underscore) together with hyphen and
dot -- the \d and \- \. escapes add nothing beyond \w, hyphen and dot. -/
def nameChar (c : Char) : Bool :=
  c.isAlphanum || c == '_' || c == '-' || c == '.'

/-- src/handlers.go line 24: validBasketName.MatchString -- the whole name
is 1 to 250 characters, every one from the class above. -/
def validBasketName (name : String) : Bool :=
  decide (1 ≤ name.length) && decide (name.length ≤ 250) && name.data.all nameChar

/-- src/handlers.go validateBasketConfig (lines 101-120).  The call to
url.ParseRequestURI (Go standard library, outside this repository) is
abstracted into the oracle urlOK: whether the forward URL parses. -/
def validateBasketConfig (maxCapacity : Int) (urlOK : String → Bool)
    (config : BasketConfig) : Option String :=
  if config.Capacity < 1 then
    some "capacity should be a positive number"
  else if config.Capacity > maxCapacity then
    some "capacity may not be greater than the maximum"
  else if 0 < config.ForwardURL.length ∧ urlOK config.ForwardURL = false then
    some "invalid forward URL"
  else none

/-- src/handlers.go validateResponseConfig (lines 122-137).  The call to
template.Parse (Go standard library, outside this repository) is
abstracted into the oracle templateOK: whether the body parses as a
template. -/
def validateResponseConfig (templateOK : String → Bool)
    (config : ResponseConfig) : Option String :=
  if config.Status < 100 ∨ 600 ≤ config.Status then
    some "invalid HTTP status of response"
  else if config.IsTemplate = true ∧ 0 < config.Body.length ∧
      templateOK config.Body = false then
    some "error in body"
  else none

/-- strings.ToUpper (Go standard library) restricted to ASCII: uppercase
every character. -/
def toUpperStr (s : String) : String :=
  String.mk (s.data.map Char.toUpper)

/-- The nine standard HTTP method tokens of src/handlers.go getValidMethod
(lines 139-158). -/
def httpMethods : List String :=
  ["GET", "HEAD", "POST", "PUT", "PATCH", "DELETE", "CONNECT", "OPTIONS", "TRACE"]

/-- src/handlers.go getValidMethod (lines 139-158): uppercase the method
path parameter and accept exactly the nine standard tokens. -/
def getValidMethod (methodParam : String) : Option String :=
  let method := toUpperStr methodParam
  if method ∈ httpMethods then some method else none

/-- The HTTP statuses the embedded handlers answer with. -/
inductive HStatus where
  | ok
  | created
  | noContent
  | notModified
  | badRequest
  | unauthorized
  | forbidden
  | notFound
  | conflict
  | unprocessableEntity
  | internalServerError
deriving Repr, DecidableEq

/-- src/handlers.go CreateBasket (lines 202-248) restricted to the state
it can change, the set of existing basket names (src/baskets_deta.go
Create, lines 182-226, inserts the fresh record and fails exactly when the
name is already taken).  The reserved-name check precedes the pattern
check; a present body is validated before the insert, an absent body uses
the server default config unvalidated. -/
def createBasket (db : List String) (name : String) (config : Option BasketConfig)
    (maxCapacity : Int) (urlOK : String → Bool) : HStatus × List String :=
  if name == serviceOldAPIPath || name == serviceAPIPath || name == serviceUIPath then
    (HStatus.forbidden, db)
  else if !(validBasketName name) then
    (HStatus.badRequest, db)
  else
    let insert : HStatus × List String :=
      if name ∈ db then (HStatus.conflict, db) else (HStatus.created, db ++ [name])
    match config with
    | some c =>
      match validateBasketConfig maxCapacity urlOK c with
      | some _ => (HStatus.unprocessableEntity, db)
      | none => insert
    | none => insert

/-- src/handlers.go UpdateBasket (lines 250-277), the body-present path:
validate the merged config; on failure answer 422 leaving the basket
untouched, otherwise apply Update and answer 204. -/
def updateBasket (maxCapacity : Int) (urlOK : String → Bool)
    (basket : detaBasket) (config : BasketConfig) : HStatus × detaBasket :=
  match validateBasketConfig maxCapacity urlOK config with
  | some _ => (HStatus.unprocessableEntity, basket)
  | none => (HStatus.noContent, basket.Update config)

/-- src/handlers.go GetBasketResponse (lines 289-305): reject unknown
methods with 400 before consulting the response map; otherwise answer the
configured response, or the library default when none is configured. -/
def getBasketResponse (basket : detaBasket) (methodParam : String)
    (defaultR : ResponseConfig) : HStatus × Option ResponseConfig :=
  match getValidMethod methodParam with
  | none => (HStatus.badRequest, none)
  | some method =>
    match basket.GetResponse method with
    | some r => (HStatus.ok, some r)
    | none => (HStatus.ok, some defaultR)

/-- src/handlers.go UpdateBasketResponse (lines 307-338): reject unknown
methods with 400 before touching the response map; with a body present,
validate it and on success upsert it for the method. -/
def updateBasketResponse (templateOK : String → Bool) (basket : detaBasket)
    (methodParam : String) (body : Option ResponseConfig) : HStatus × detaBasket :=
  match getValidMethod methodParam with
  | none => (HStatus.badRequest, basket)
  | some method =>
    match body with
    | none => (HStatus.notModified, basket)
    | some response =>
      match validateResponseConfig templateOK response with
      | some _ => (HStatus.unprocessableEntity, basket)
      | none => (HStatus.noContent, basket.SetResponse method response)

section AddLemmas

/-- One Add step in closed form: the stored sequence becomes the new
snapshot consed on, truncated to capacity (no truncation happens exactly
when it already fits). -/
theorem add_requests_eq (basket : detaBasket) (data : RequestData)
    (hc : 0 ≤ basket.BConfig.Capacity) :
    (basket.Add data).Requests
      = (data :: basket.Requests).take basket.BConfig.Capacity.toNat := by
  unfold detaBasket.Add detaBasket.applyLimit
  split
  · rfl
  · rename_i h
    have hlen : (data :: basket.Requests).length ≤ basket.BConfig.Capacity.toNat := by
      simp only [List.length_cons] at h ⊢
      omega
    exact (List.take_of_length_le hlen).symm

theorem add_config (basket : detaBasket) (data : RequestData) :
    (basket.Add data).BConfig = basket.BConfig := by
  unfold detaBasket.Add detaBasket.applyLimit
  split <;> rfl

theorem add_totalCount (basket : detaBasket) (data : RequestData) :
    (basket.Add data).TotalCount = basket.TotalCount + 1 := by
  unfold detaBasket.Add detaBasket.applyLimit
  split <;> rfl

theorem take_append_take (xs ys : List α) (n : Nat) :
    (xs ++ ys.take n).take n = (xs ++ ys).take n := by
  rw [List.take_append_eq_append_take, List.take_append_eq_append_take, List.take_take]
  congr 2
  omega

/-- The invariant driving claim C1: starting from any basket whose stored
list fits within its (non-negative) capacity, a run of Adds leaves the
reversed run appended in front, truncated to capacity. -/
theorem addAll_requests_eq (rs : List RequestData) :
    ∀ basket : detaBasket, 0 ≤ basket.BConfig.Capacity →
      basket.Requests.length ≤ basket.BConfig.Capacity.toNat →
      (basket.AddAll rs).Requests
        = (rs.reverse ++ basket.Requests).take basket.BConfig.Capacity.toNat := by
  induction rs with
  | nil =>
    intro basket _ hlen
    simp [detaBasket.AddAll, List.take_of_length_le hlen]
  | cons r rs ih =>
    intro basket hc hlen
    have hstep := add_requests_eq basket r hc
    have hcfg := add_config basket r
    have hlen' : (basket.Add r).Requests.length ≤ basket.BConfig.Capacity.toNat := by
      rw [hstep]
      exact List.length_take_le _ _
    have := ih (basket.Add r) (by rw [hcfg]; exact hc) (by rw [hcfg]; exact hlen')
    rw [detaBasket.AddAll, this, hcfg, hstep, take_append_take]
    simp

theorem addAll_totalCount (rs : List RequestData) :
    ∀ basket : detaBasket,
      (basket.AddAll rs).TotalCount = basket.TotalCount + rs.length := by
  induction rs with
  | nil => intro basket; simp [detaBasket.AddAll]
  | cons r rs ih =>
    intro basket
    rw [detaBasket.AddAll, ih, add_totalCount]
    simp only [List.length_cons]
    omega

end AddLemmas

/-- C1: for every basket with capacity C >= 1, after N sequential Add
operations on a freshly created basket the stored sequence has length
min(N, C), its first element is the snapshot of the most recent Add, and
the cumulative total counter equals N regardless of eviction. -/
theorem C1_add_capacity_total (name token : String) (config : BasketConfig)
    (rs : List RequestData) (hC : 1 ≤ config.Capacity) :
    ((freshBasket name token config).AddAll rs).Requests.length
        = min rs.length config.Capacity.toNat
      ∧ ((freshBasket name token config).AddAll rs).TotalCount = rs.length
      ∧ ∀ r rest, rs = rest ++ [r] →
          ((freshBasket name token config).AddAll rs).Requests.head? = some r := by
  have hc : 0 ≤ config.Capacity := by omega
  have hreq := addAll_requests_eq rs (freshBasket name token config) hc (by simp [freshBasket])
  have htot := addAll_totalCount rs (freshBasket name token config)
  simp only [freshBasket] at hreq htot ⊢
  refine ⟨?_, ?_, ?_⟩
  · rw [hreq]
    simp only [List.length_take, List.length_append, List.length_reverse, List.length_nil]
    omega
  · omega
  · intro r rest hrs
    rw [hreq, hrs]
    have h1 : config.Capacity.toNat ≥ 1 := by omega
    simp only [List.reverse_append, List.reverse_singleton, List.singleton_append,
      List.append_nil]
    cases hcap : config.Capacity.toNat with
    | zero => omega
    | succ k => simp [List.take_cons]

/-- Witness for C1 at a concrete run: capacity 2, three adds; size 2,
total 3, newest first. -/
theorem C1_witness :
    (((freshBasket "b" "t"
      { ForwardURL := "", Capacity := 2, ProxyResponse := false,
        InsecureTLS := false, ExpandPath := false }).AddAll
        [⟨"GET", "/b", "", "", "req1", 1⟩,
         ⟨"GET", "/b", "", "", "req2", 2⟩,
         ⟨"GET", "/b", "", "", "req3", 3⟩]).Requests.length = min 3 2)
    ∧ (((freshBasket "b" "t"
      { ForwardURL := "", Capacity := 2, ProxyResponse := false,
        InsecureTLS := false, ExpandPath := false }).AddAll
        [⟨"GET", "/b", "", "", "req1", 1⟩,
         ⟨"GET", "/b", "", "", "req2", 2⟩,
         ⟨"GET", "/b", "", "", "req3", 3⟩]).Requests.head?
      = some ⟨"GET", "/b", "", "", "req3", 3⟩) := by
  have h := C1_add_capacity_total "b" "t"
    { ForwardURL := "", Capacity := 2, ProxyResponse := false,
      InsecureTLS := false, ExpandPath := false }
    [⟨"GET", "/b", "", "", "req1", 1⟩,
     ⟨"GET", "/b", "", "", "req2", 2⟩,
     ⟨"GET", "/b", "", "", "req3", 3⟩] (by decide)
  exact ⟨h.1, h.2.2 ⟨"GET", "/b", "", "", "req3", 3⟩
    [⟨"GET", "/b", "", "", "req1", 1⟩, ⟨"GET", "/b", "", "", "req2", 2⟩] rfl⟩

/-! Concrete fixtures used by witnesses. -/

def reqA : RequestData :=
  { Method := "GET", Path := "/b", Query := "", HeadersBlock := "", Body := "alpha", Date := 1 }

def reqB : RequestData :=
  { Method := "POST", Path := "/b", Query := "id=1", HeadersBlock := "ChocoPie: yummy",
    Body := "beta", Date := 2 }

def cfgN (n : Int) : BasketConfig :=
  { ForwardURL := "", Capacity := n, ProxyResponse := false, InsecureTLS := false,
    ExpandPath := false }

def basketAB : detaBasket :=
  { Key := "b", Token := "t", BConfig := cfgN 10, Requests := [reqB, reqA],
    TotalCount := 2, Responses := [] }

/-- src/handlers.go line 25: the library default response. -/
def defaultResponse : ResponseConfig :=
  { Status := 200, Headers := [], Body := "", IsTemplate := false }

/-- C3: GetRequests returns the slice of the current newest-first sequence
at offset skip of length at most max; Count is the stored size, TotalCount
the cumulative counter, HasMore holds exactly when skip+max < Count, and a
skip at or beyond the stored size yields an empty slice with HasMore
false. -/
theorem C3_getRequests_contract (basket : detaBasket) (max skip : Nat) :
    (basket.GetRequests max skip).Requests = (basket.Requests.drop skip).take max
    ∧ (basket.GetRequests max skip).Requests.length ≤ max
    ∧ (basket.GetRequests max skip).Count = basket.Requests.length
    ∧ (basket.GetRequests max skip).TotalCount = basket.TotalCount
    ∧ ((basket.GetRequests max skip).HasMore = true ↔
        skip + max < (basket.GetRequests max skip).Count)
    ∧ (basket.Requests.length ≤ skip →
        (basket.GetRequests max skip).Requests = []
        ∧ (basket.GetRequests max skip).HasMore = false) := by
  have hmain : (basket.GetRequests max skip).Requests
      = (basket.Requests.drop skip).take max := by
    simp only [detaBasket.GetRequests, detaBasket.Size]
    by_cases h : skip < basket.Requests.length
    · simp only [if_pos h, List.drop_take, List.take_eq_take, List.length_drop]
      omega
    · simp only [if_neg h]
      rw [List.drop_eq_nil_of_le (by omega), List.take_nil]
  have hcount : (basket.GetRequests max skip).Count = basket.Requests.length := by
    simp only [detaBasket.GetRequests, detaBasket.Size]
    split <;> rfl
  have htc : (basket.GetRequests max skip).TotalCount = basket.TotalCount := by
    simp only [detaBasket.GetRequests, detaBasket.Size]
    split <;> rfl
  have hhm : (basket.GetRequests max skip).HasMore
      = decide (skip + max < basket.Requests.length) := by
    simp only [detaBasket.GetRequests, detaBasket.Size]
    split <;> rfl
  refine ⟨hmain, ?_, hcount, htc, ?_, ?_⟩
  · rw [hmain]
    exact List.length_take_le _ _
  · rw [hhm, hcount]
    simp
  · intro hle
    refine ⟨?_, ?_⟩
    · rw [hmain, List.drop_eq_nil_of_le hle, List.take_nil]
    · rw [hhm]
      simp only [decide_eq_false_iff_not]
      omega

/-- Witness for C3 at a skip beyond the stored size. -/
theorem C3_witness :
    (basketAB.GetRequests 2 3).Requests = [] ∧ (basketAB.GetRequests 2 3).HasMore = false :=
  (C3_getRequests_contract basketAB 2 3).2.2.2.2.2 (by decide)

section UpdateLemmas

theorem update_config (basket : detaBasket) (config : BasketConfig) :
    (basket.Update config).BConfig = config := by
  unfold detaBasket.Update detaBasket.applyLimit
  split <;> rfl

theorem update_requests (basket : detaBasket) (config : BasketConfig) :
    (basket.Update config).Requests
      = (if (basket.Requests.length : Int) > config.Capacity
         then basket.Requests.take config.Capacity.toNat else basket.Requests) := by
  unfold detaBasket.Update detaBasket.applyLimit
  split <;> rfl

end UpdateLemmas

/-- C6: updating the configuration to a capacity below the stored size
truncates the sequence to exactly that many elements, keeping the newest
ones in order (a list-take of the newest-first sequence); a capacity at or
above the stored size leaves the sequence unchanged; the config itself is
replaced. -/
theorem C6_update_truncation (basket : detaBasket) (config : BasketConfig)
    (hc : 1 ≤ config.Capacity) :
    (basket.Update config).BConfig = config
    ∧ (config.Capacity < (basket.Requests.length : Int) →
        (basket.Update config).Requests = basket.Requests.take config.Capacity.toNat
        ∧ (basket.Update config).Requests.length = config.Capacity.toNat)
    ∧ ((basket.Requests.length : Int) ≤ config.Capacity →
        (basket.Update config).Requests = basket.Requests) := by
  refine ⟨update_config _ _, ?_, ?_⟩
  · intro hlt
    have h := update_requests basket config
    rw [if_pos (show (basket.Requests.length : Int) > config.Capacity from hlt)] at h
    refine ⟨h, ?_⟩
    rw [h, List.length_take]
    omega
  · intro hle
    have h := update_requests basket config
    rw [if_neg (by omega)] at h
    exact h

/-- Witness for C6: shrinking the two-request basket to capacity 1 keeps
only the newest request; growing it changes nothing. -/
theorem C6_witness :
    ((basketAB.Update (cfgN 1)).Requests = basketAB.Requests.take 1)
    ∧ ((basketAB.Update (cfgN 5)).Requests = basketAB.Requests) :=
  ⟨((C6_update_truncation basketAB (cfgN 1) (by decide)).2.1 (by decide)).1,
    (C6_update_truncation basketAB (cfgN 5) (by decide)).2.2 (by decide)⟩

/-- C7: Clear empties the stored sequence and leaves the cumulative total
counter, the access token, the basket configuration and the per-method
response configurations unchanged. -/
theorem C7_clear_frame (basket : detaBasket) :
    (basket.Clear).Requests = []
    ∧ (basket.Clear).TotalCount = basket.TotalCount
    ∧ (basket.Clear).Token = basket.Token
    ∧ (basket.Clear).BConfig = basket.BConfig
    ∧ (basket.Clear).Responses = basket.Responses :=
  ⟨rfl, rfl, rfl, rfl, rfl⟩

/-- C2 (documenting the code bug): authorizeRequest grants every request,
including a basket-creation request in restricted mode carrying no token
at all -- the master-token check described by its own doc comment is
commented out in src/handlers.go lines 89-98, so the Unauthorized
rejection the spec requires never occurs and CreateBasket proceeds. -/
theorem C2_authorize_always_grants :
    ∀ (publicAPI : Bool) (mode masterToken authHeader : String),
      authorizeRequest publicAPI mode masterToken authHeader = true
      ∧ authorizeRequest true ModeRestricted masterToken "" = true :=
  fun _ _ _ _ => ⟨rfl, rfl⟩

/-- C5 (documenting the code bug): the database holds the single name
"abc" and the query "b" is a substring of it, yet FindNames answers the
empty page with HasMore false -- the scan is commented out in
src/baskets_deta.go lines 351-367. -/
theorem C5_findNames_always_empty :
    strContains "abc" "b" = true
    ∧ detaDatabase.FindNames ["abc"] "b" 10 0
        = { Names := [], HasMore := false } :=
  ⟨by decide, rfl⟩

section ValidationLemmas

theorem length_pos_of_ne_empty (s : String) (h : s ≠ "") : 0 < s.length := by
  cases s with
  | mk data =>
    cases data with
    | nil => exact absurd rfl h
    | cons a as => simp [String.length]

theorem validateBasketConfig_rejects (maxCapacity : Int) (urlOK : String → Bool)
    (config : BasketConfig)
    (h : config.Capacity < 1 ∨ maxCapacity < config.Capacity ∨
      (config.ForwardURL ≠ "" ∧ urlOK config.ForwardURL = false)) :
    ∃ msg, validateBasketConfig maxCapacity urlOK config = some msg := by
  unfold validateBasketConfig
  split_ifs with h1 h2 h3
  · exact ⟨_, rfl⟩
  · exact ⟨_, rfl⟩
  · exact ⟨_, rfl⟩
  · rcases h with h | h | ⟨hne, hurl⟩
    · exact absurd h h1
    · exact absurd (show config.Capacity > maxCapacity from h) h2
    · exact absurd ⟨length_pos_of_ne_empty _ hne, hurl⟩ h3

theorem validateResponseConfig_rejects (templateOK : String → Bool)
    (config : ResponseConfig)
    (h : config.Status < 100 ∨ 599 < config.Status ∨
      (config.IsTemplate = true ∧ config.Body ≠ "" ∧ templateOK config.Body = false)) :
    ∃ msg, validateResponseConfig templateOK config = some msg := by
  unfold validateResponseConfig
  split_ifs with h1 h2
  · exact ⟨_, rfl⟩
  · exact ⟨_, rfl⟩
  · rcases h with h | h | ⟨ht, hne, htp⟩
    · exact absurd (Or.inl h) h1
    · exact absurd (Or.inr (by omega)) h1
    · exact absurd ⟨ht, length_pos_of_ne_empty _ hne, htp⟩ h2

theorem getValidMethod_of_mem {methodParam : String}
    (h : toUpperStr methodParam ∈ httpMethods) :
    getValidMethod methodParam = some (toUpperStr methodParam) := by
  unfold getValidMethod
  rw [if_pos h]

theorem getValidMethod_of_not_mem {methodParam : String}
    (h : toUpperStr methodParam ∉ httpMethods) :
    getValidMethod methodParam = none := by
  unfold getValidMethod
  rw [if_neg h]

theorem getValidMethod_mem {methodParam method : String}
    (h : getValidMethod methodParam = some method) : method ∈ httpMethods := by
  by_cases hm : toUpperStr methodParam ∈ httpMethods
  · rw [getValidMethod_of_mem hm] at h
    cases h
    exact hm
  · rw [getValidMethod_of_not_mem hm] at h
    cases h

end ValidationLemmas

/-- C8: a basket config whose capacity is below 1 or above the server
maximum, or whose non-empty forward URL does not parse, is rejected by the
update handler with an unprocessable-entity error and no change to the
basket; a response config whose status lies outside [100,599], or which is
flagged as a template with a non-empty body that does not parse, is
rejected the same way by the response-update handler.  The standard
library URL and template parsers are the oracles urlOK and templateOK. -/
theorem C8_validation_rejects (maxCapacity : Int) (urlOK templateOK : String → Bool)
    (basket : detaBasket) :
    (∀ config : BasketConfig,
      (config.Capacity < 1 ∨ maxCapacity < config.Capacity ∨
        (config.ForwardURL ≠ "" ∧ urlOK config.ForwardURL = false)) →
      updateBasket maxCapacity urlOK basket config
        = (HStatus.unprocessableEntity, basket))
    ∧ (∀ (methodParam : String) (response : ResponseConfig),
        toUpperStr methodParam ∈ httpMethods →
        (response.Status < 100 ∨ 599 < response.Status ∨
          (response.IsTemplate = true ∧ response.Body ≠ "" ∧
            templateOK response.Body = false)) →
        updateBasketResponse templateOK basket methodParam (some response)
          = (HStatus.unprocessableEntity, basket)) := by
  constructor
  · intro config h
    obtain ⟨msg, hv⟩ := validateBasketConfig_rejects maxCapacity urlOK config h
    unfold updateBasket
    rw [hv]
  · intro methodParam response hm h
    obtain ⟨msg, hv⟩ := validateResponseConfig_rejects templateOK response h
    unfold updateBasketResponse
    rw [getValidMethod_of_mem hm]
    simp only [hv]

/-- Witness for C8: capacity 0 and status 700 are both turned away with
the basket untouched. -/
theorem C8_witness :
    updateBasket 2000 (fun _ => true) basketAB (cfgN 0)
      = (HStatus.unprocessableEntity, basketAB)
    ∧ updateBasketResponse (fun _ => true) basketAB "post"
        (some { Status := 700, Headers := [], Body := "", IsTemplate := false })
      = (HStatus.unprocessableEntity, basketAB) :=
  ⟨(C8_validation_rejects 2000 (fun _ => true) (fun _ => true) basketAB).1 (cfgN 0)
      (Or.inl (by decide)),
    (C8_validation_rejects 2000 (fun _ => true) (fun _ => true) basketAB).2 "post"
      { Status := 700, Headers := [], Body := "", IsTemplate := false }
      (by decide) (Or.inr (Or.inl (by decide)))⟩

/-- C9: a creation request whose basket name does not match the anchored
pattern (1 to 250 characters from letters, digits, underscore, hyphen,
dot) fails with a client error, and a name equal to one of the reserved
service path segments ("baskets" the admin listing, "api" the API root,
"web" the UI root) fails with an error; in both cases the set of existing
baskets is unchanged, so no basket is created. -/
theorem C9_create_name_gate (db : List String) (name : String)
    (config : Option BasketConfig) (maxCapacity : Int) (urlOK : String → Bool) :
    (validBasketName name = false →
      createBasket db name config maxCapacity urlOK = (HStatus.badRequest, db))
    ∧ ((name = serviceOldAPIPath ∨ name = serviceAPIPath ∨ name = serviceUIPath) →
      createBasket db name config maxCapacity urlOK = (HStatus.forbidden, db)) := by
  constructor
  · intro h
    have h1 : name ≠ serviceOldAPIPath := by
      intro he
      rw [he] at h
      exact absurd h (by decide)
    have h2 : name ≠ serviceAPIPath := by
      intro he
      rw [he] at h
      exact absurd h (by decide)
    have h3 : name ≠ serviceUIPath := by
      intro he
      rw [he] at h
      exact absurd h (by decide)
    simp [createBasket, h, h1, h2, h3]
  · intro hres
    rcases hres with he | he | he <;> simp [createBasket, he]

/-- Witness for C9: a name with a space is turned away as a bad request,
the reserved name "api" as forbidden, leaving the database unchanged. -/
theorem C9_witness :
    createBasket ["x"] "a b" none 2000 (fun _ => true) = (HStatus.badRequest, ["x"])
    ∧ createBasket ["x"] "api" none 2000 (fun _ => true) = (HStatus.forbidden, ["x"]) :=
  ⟨(C9_create_name_gate ["x"] "a b" none 2000 (fun _ => true)).1 (by decide),
    (C9_create_name_gate ["x"] "api" none 2000 (fun _ => true)).2 (Or.inr (Or.inl rfl))⟩

section ResponseMapLemmas

theorem upsertResponse_keys (method : String) (response : ResponseConfig) :
    ∀ (l : List (String × ResponseConfig)) (kv : String × ResponseConfig),
      kv ∈ upsertResponse l method response → kv.1 = method ∨ kv ∈ l := by
  intro l
  induction l with
  | nil =>
    intro kv hkv
    simp only [upsertResponse, List.mem_singleton] at hkv
    exact Or.inl (by rw [hkv])
  | cons hd rest ih =>
    intro kv hkv
    rcases hd with ⟨k, v⟩
    simp only [upsertResponse] at hkv
    split_ifs at hkv with hk
    · rcases List.mem_cons.mp hkv with he | ht
      · exact Or.inl (by rw [he])
      · exact Or.inr (List.mem_cons_of_mem _ ht)
    · rcases List.mem_cons.mp hkv with he | ht
      · exact Or.inr (by rw [he]; exact List.mem_cons_self _ _)
      · rcases ih kv ht with hm | hm
        · exact Or.inl hm
        · exact Or.inr (List.mem_cons_of_mem _ hm)

end ResponseMapLemmas

/-- C10: the response-configuration endpoints uppercase the method path
parameter and reject anything outside the nine standard HTTP method
tokens with a client error before reading or writing the response map
(read answers 400 with no response, update answers 400 with the basket
unchanged); consequently, when every key of the response map lies in the
nine-token set, it still does after any update through the endpoint. -/
theorem C10_method_gate (templateOK : String → Bool) (basket : detaBasket)
    (methodParam : String) (body : Option ResponseConfig) (defaultR : ResponseConfig) :
    (toUpperStr methodParam ∉ httpMethods →
      updateBasketResponse templateOK basket methodParam body
          = (HStatus.badRequest, basket)
      ∧ getBasketResponse basket methodParam defaultR = (HStatus.badRequest, none))
    ∧ ((∀ kv ∈ basket.Responses, kv.1 ∈ httpMethods) →
      ∀ kv ∈ (updateBasketResponse templateOK basket methodParam body).2.Responses,
        kv.1 ∈ httpMethods) := by
  constructor
  · intro hnot
    constructor
    · unfold updateBasketResponse
      rw [getValidMethod_of_not_mem hnot]
    · unfold getBasketResponse
      rw [getValidMethod_of_not_mem hnot]
  · intro hinv kv hkv
    unfold updateBasketResponse at hkv
    split at hkv
    · exact hinv kv hkv
    · rename_i method hgv
      split at hkv
      · exact hinv kv hkv
      · rename_i response
        split at hkv
        · exact hinv kv hkv
        · simp only [detaBasket.SetResponse] at hkv
          rcases upsertResponse_keys method response basket.Responses kv hkv with he | hm
          · rw [he]
            exact getValidMethod_mem hgv
          · exact hinv kv hm

/-- Witness for C10: the unknown method "foo" is rejected by both
endpoints with the basket untouched, and the key invariant is kept on a
successful POST update. -/
theorem C10_witness :
    (updateBasketResponse (fun _ => true) basketAB "foo" none
        = (HStatus.badRequest, basketAB)
      ∧ getBasketResponse basketAB "foo" defaultResponse = (HStatus.badRequest, none))
    ∧ ∀ kv ∈ (updateBasketResponse (fun _ => true) basketAB "post"
        (some defaultResponse)).2.Responses, kv.1 ∈ httpMethods :=
  ⟨(C10_method_gate (fun _ => true) basketAB "foo" none defaultResponse).1 (by decide),
    (C10_method_gate (fun _ => true) basketAB "post" (some defaultResponse)
        defaultResponse).2 (by decide)⟩

section FindLemmas

theorem filter_matches_cons_pos (query fld : String) (request : RequestData)
    (rest : List RequestData) (hm : request.Matches query fld = true) :
    (request :: rest).filter (fun r => r.Matches query fld)
      = request :: rest.filter (fun r => r.Matches query fld) := by
  simp [List.filter_cons, hm]

theorem filter_matches_cons_neg (query fld : String) (request : RequestData)
    (rest : List RequestData) (hm : request.Matches query fld = false) :
    (request :: rest).filter (fun r => r.Matches query fld)
      = rest.filter (fun r => r.Matches query fld) := by
  simp [List.filter_cons, hm]

theorem countP_matches_cons_pos (query fld : String) (request : RequestData)
    (rest : List RequestData) (hm : request.Matches query fld = true) :
    (request :: rest).countP (fun r => r.Matches query fld)
      = rest.countP (fun r => r.Matches query fld) + 1 := by
  simp [List.countP_cons, hm]

theorem countP_matches_cons_neg (query fld : String) (request : RequestData)
    (rest : List RequestData) (hm : request.Matches query fld = false) :
    (request :: rest).countP (fun r => r.Matches query fld)
      = rest.countP (fun r => r.Matches query fld) := by
  simp [List.countP_cons, hm]

/-- The loop invariant of the FindRequests scan: entered with skipped
matches already skipped and a result shorter than max, the scan returns
the result extended by the next max - result.length matches after
skipping skip - skipped further ones, and reports more data exactly when
the (skip - skipped) + (max - result.length) matches it still needs all
occur before the last element of the remaining list. -/
theorem findScan_spec (query fld : String) (max skip : Nat) (hmax : 1 ≤ max) :
    ∀ (rest : List RequestData) (skipped : Nat) (result : List RequestData),
      skipped ≤ skip → result.length < max →
      (findScan query fld max skip rest skipped result).Requests
          = result ++ ((rest.filter (fun r => r.Matches query fld)).drop
              (skip - skipped)).take (max - result.length)
      ∧ (findScan query fld max skip rest skipped result).HasMore
          = decide ((skip - skipped) + (max - result.length)
              ≤ rest.dropLast.countP (fun r => r.Matches query fld)) := by
  intro rest
  induction rest with
  | nil =>
    intro skipped result hsk hlen
    constructor
    · simp [findScan]
    · simp only [findScan]
      symm
      rw [decide_eq_false_iff_not]
      simp only [List.dropLast_nil, List.countP_nil]
      omega
  | cons request rest ih =>
    intro skipped result hsk hlen
    by_cases hm : request.Matches query fld = true
    · by_cases hlt : skipped < skip
      · -- a match that is skipped: the accumulator keeps its length
        have hne : result.length ≠ max := by omega
        have hstep : findScan query fld max skip (request :: rest) skipped result
            = findScan query fld max skip rest (skipped + 1) result := by
          simp [findScan, hm, hlt, hne]
        have h2 := ih (skipped + 1) result (by omega) hlen
        have hd : skip - skipped = (skip - (skipped + 1)) + 1 := by omega
        constructor
        · rw [hstep, h2.1, filter_matches_cons_pos query fld request rest hm, hd,
            List.drop_succ_cons]
        · rw [hstep, h2.2, decide_eq_decide]
          cases rest with
          | nil =>
            simp only [List.dropLast_nil, List.dropLast_single, List.countP_nil]
            omega
          | cons r2 rest2 =>
            rw [List.dropLast_cons₂,
              countP_matches_cons_pos query fld request (r2 :: rest2).dropLast hm]
            omega
      · -- a match that is collected
        by_cases hexit : result.length + 1 = max
        · -- the early exit fires
          have hstepR : (findScan query fld max skip (request :: rest) skipped
                result).Requests = result ++ [request] := by
            simp [findScan, hm, hlt, hexit]
          have hstepH : (findScan query fld max skip (request :: rest) skipped
                result).HasMore = !rest.isEmpty := by
            simp [findScan, hm, hlt, hexit]
          have h0 : skip - skipped = 0 := by omega
          have h1 : max - result.length = 1 := by omega
          constructor
          · rw [hstepR, filter_matches_cons_pos query fld request rest hm, h0, h1,
              List.drop_zero]
            rfl
          · rw [hstepH, h0, h1]
            cases rest with
            | nil => rfl
            | cons r2 rest2 =>
              rw [List.dropLast_cons₂,
                countP_matches_cons_pos query fld request (r2 :: rest2).dropLast hm]
              simp only [List.isEmpty_cons, Bool.not_false]
              symm
              rw [decide_eq_true_eq]
              omega
        · -- collected without filling the page: recurse
          have hstep : findScan query fld max skip (request :: rest) skipped result
              = findScan query fld max skip rest skipped (result ++ [request]) := by
            simp [findScan, hm, hlt, hexit]
          have hlen2 : (result ++ [request]).length = result.length + 1 := by
            simp
          have h2 := ih skipped (result ++ [request]) hsk (by rw [hlen2]; omega)
          have h0 : skip - skipped = 0 := by omega
          have hd : max - result.length = (max - (result.length + 1)) + 1 := by
            omega
          constructor
          · rw [hstep, h2.1, hlen2, filter_matches_cons_pos query fld request rest hm,
              h0, List.drop_zero, List.drop_zero, List.append_assoc,
              List.singleton_append, hd, List.take_succ_cons]
          · rw [hstep, h2.2, hlen2, h0, decide_eq_decide]
            cases rest with
            | nil =>
              simp only [List.dropLast_nil, List.dropLast_single, List.countP_nil]
              omega
            | cons r2 rest2 =>
              rw [List.dropLast_cons₂,
                countP_matches_cons_pos query fld request (r2 :: rest2).dropLast hm]
              omega
    · -- not a match: state unchanged
      have hm' : request.Matches query fld = false := by
        cases hq : request.Matches query fld
        · rfl
        · exact absurd hq hm
      have hne : result.length ≠ max := by omega
      have hstep : findScan query fld max skip (request :: rest) skipped result
          = findScan query fld max skip rest skipped result := by
        simp [findScan, hm', hne]
      have h2 := ih skipped result hsk hlen
      constructor
      · rw [hstep, h2.1, filter_matches_cons_neg query fld request rest hm']
      · rw [hstep, h2.2, decide_eq_decide]
        cases rest with
        | nil => exact Iff.rfl
        | cons r2 rest2 =>
          rw [List.dropLast_cons₂,
            countP_matches_cons_neg query fld request (r2 :: rest2).dropLast hm']

end FindLemmas

/-- C4, amended to max >= 1 (the only values the API hands the function:
handlers.go getPage clamps max into [1, PageSize*10]): the scan visits the
stored sequence newest-first, matching on the selected field, skips the
first skip matches, collects at most max matches -- the result is exactly
the take-max of the drop-skip of the filtered sequence -- and reports
HasMore exactly when it stopped with items unscanned, which happens
precisely when the skip+max matches it collects all occur before the last
stored element. -/
theorem C4_findRequests_contract (basket : detaBasket) (query fld : String)
    (max skip : Nat) (hmax : 1 ≤ max) :
    (basket.FindRequests query fld max skip).Requests
        = ((basket.Requests.filter (fun r => r.Matches query fld)).drop skip).take max
    ∧ (basket.FindRequests query fld max skip).Requests.length ≤ max
    ∧ (basket.FindRequests query fld max skip).HasMore
        = decide (skip + max ≤
            basket.Requests.dropLast.countP (fun r => r.Matches query fld)) := by
  have h := findScan_spec query fld max skip hmax basket.Requests 0 []
    (Nat.zero_le _) (by simp only [List.length_nil]; omega)
  unfold detaBasket.FindRequests
  refine ⟨?_, ?_, ?_⟩
  · rw [h.1]
    simp
  · rw [h.1]
    simp only [List.nil_append, List.length_nil, Nat.sub_zero]
    exact List.length_take_le _ _
  · rw [h.2]
    simp

/-- Witness for C4 on the two-request basket: searching the headers for
"yummy" with max 1 collects exactly the newest matching request and stops
early with the older request unscanned, so HasMore is true. -/
theorem C4_witness :
    (basketAB.FindRequests "yummy" "headers" 1 0).Requests
        = ((basketAB.Requests.filter
            (fun r => r.Matches "yummy" "headers")).drop 0).take 1
    ∧ (basketAB.FindRequests "yummy" "headers" 1 0).HasMore
        = decide (0 + 1 ≤ basketAB.Requests.dropLast.countP
            (fun r => r.Matches "yummy" "headers")) :=
  ⟨(C4_findRequests_contract basketAB "yummy" "headers" 1 0 (by decide)).1,
    (C4_findRequests_contract basketAB "yummy" "headers" 1 0 (by decide)).2.2⟩

def basketOne : detaBasket :=
  { Key := "b", Token := "t", BConfig := cfgN 10, Requests := [reqA],
    TotalCount := 1, Responses := [] }

/-- C4 counterexample to the claim as stated over every max: at max = 0
the scan returns one match, more than max -- the early-exit check
compares the result length with max only after a possible append, so once
a first match is collected the length can never come back to zero and the
scan collects every remaining match. -/
theorem C4_counterexample :
    ¬ ((basketOne.FindRequests "" "any" 0 0).Requests.length ≤ 0) := by decide
